import Mathlib

/-!
Verification of the trigger-and-cascade orchestrator of the
`auto-pipeline` tool (`src/index.ts`), a run-once automation that
triggers GitLab CI pipelines and then plays manually-gated jobs.

Shallow embedding: the GitLab HTTP API is modelled as an oracle
(`Platform`) giving the result of each `createPipeline`, `listJobs`
(indexed by poll attempt) and `playJob` call; the orchestrator and the
cascade engine are translated as pure functions producing the ordered
trace of API calls (`List Event`) together with an `Except`-style
outcome, mirroring thrown/rethrown exceptions in the TypeScript source.
-/

namespace AutoPipeline

/-- Error taxonomy of the API client (spec §7); the code rethrows axios
errors unchanged, so an abstract kind is enough. -/
inductive ErrKind
  | AuthError
  | NotFoundError
  | ValidationError
  | TransientError
  deriving DecidableEq, Repr

/-- `PipelineVariable` from `src/index.ts` (the optional flags
`protected`/`masked`/`raw` are never set by this program). -/
structure PipelineVariable where
  key : String
  value : String
  deriving DecidableEq, Repr

/-- `TriggerPipelineRequest` from `src/index.ts` (the `token` field is
never set by this program). -/
structure TriggerPipelineRequest where
  ref : String
  «variables» : Option (List PipelineVariable)
  deriving DecidableEq, Repr

/-- `PipelineResponse` from `src/index.ts`; the cascade engine only ever
reads `id`. -/
structure PipelineResponse where
  id : Nat
  sha : String
  ref : String
  status : String
  web_url : String
  deriving DecidableEq, Repr

/-- `Job` from `src/index.ts`; the cascade engine reads `status` and `id`. -/
structure Job where
  id : Nat
  name : String
  stage : String
  status : String
  manual : Bool
  deriving DecidableEq, Repr

/-- `Project` from `src/index.ts`. -/
structure Project where
  id : String
  name : String
  deriving DecidableEq, Repr

/-- One API call made by the program, recorded in order. -/
inductive Event
  | createPipelineCall (projectId : String) (body : TriggerPipelineRequest)
  | listJobsCall (projectId : String) (pipelineId : Nat)
  | playJobCall (projectId : String) (jobId : Nat)
  deriving DecidableEq, Repr

/-- Normal terminations of one cascade pass: `doneEmpty` when the retry
budget is exhausted with no manual jobs, `done` after all discovered
manual jobs were played. -/
inductive CascadeResult
  | doneEmpty
  | done
  deriving DecidableEq, Repr

/-- The platform oracle: the outcome of each possible API call.
`listJobs` additionally takes the 0-based poll-attempt index, so that a
mock platform may answer successive polls differently. -/
structure Platform where
  createPipeline : String → TriggerPipelineRequest → Except ErrKind PipelineResponse
  listJobs : String → Nat → Nat → Except ErrKind (List Job)
  playJob : String → Nat → Except ErrKind Unit

/-! ### JavaScript string operations

`getPipelineVariables` uses `key.startsWith('VARIABLE_')` and
`key.replace('VARIABLE_', '')`.  JS `String.prototype.replace` with a
string pattern replaces only the FIRST occurrence, so it is embedded
faithfully as such. -/

/-- Replace the first occurrence of `pat` in a character list by `repl`
(JS `String.prototype.replace` with a string pattern). -/
def listReplaceFirst (pat repl : List Char) : List Char → List Char
  | [] => if pat = [] then repl else []
  | c :: cs =>
    if pat.isPrefixOf (c :: cs) then repl ++ (c :: cs).drop pat.length
    else c :: listReplaceFirst pat repl cs

/-- JS `s.replace(pat, repl)` for a string pattern: first occurrence only. -/
def jsReplaceFirst (s pat repl : String) : String :=
  ⟨listReplaceFirst pat.data repl.data s.data⟩

/-- JS `s.startsWith(p)`. -/
def jsStartsWith (s p : String) : Bool :=
  p.data.isPrefixOf s.data

/-- `getPipelineVariables` (`src/index.ts` lines 143–157): scan the
environment entries in order, keep the keys starting with `VARIABLE_`
whose value is defined, strip the prefix via `key.replace`, keep the
value unchanged. -/
def getPipelineVariables (env : List (String × Option String)) :
    List PipelineVariable :=
  env.filterMap fun kv =>
    match kv.2 with
    | some v =>
      if jsStartsWith kv.1 "VARIABLE_" then
        some { key := jsReplaceFirst kv.1 "VARIABLE_" "", value := v }
      else none
    | none => none

/-- The request body built by `triggerPipeline` (`src/index.ts` lines
253–256): `«variables»` is omitted (undefined) when the derived list is
empty. -/
def mkRequestBody (env : List (String × Option String)) (ref : String) :
    TriggerPipelineRequest :=
  let «variables» := getPipelineVariables env
  { ref := ref
    «variables» := if «variables».length > 0 then some «variables» else none }

/-- `maxRetries` from `runAllManualJobs`: 3 total poll attempts. -/
def maxRetries : Nat := 3

/-- The `while (manualJobs.length === 0 && retryCount < maxRetries)`
polling loop of `runAllManualJobs` (`src/index.ts` lines 196–216):
`remaining` is `maxRetries - retryCount`, `callIdx` the 0-based attempt.
Each iteration calls `listJobs` once (via `getPipelineJobs`, which
rethrows failures) and filters to `status === 'manual'`; a non-empty
filtered set stops the loop, a thrown error propagates. -/
def pollPhase (pid : String) (plid : Nat)
    (polls : Nat → Except ErrKind (List Job)) :
    Nat → Nat → List Event × Except ErrKind (List Job)
  | _, 0 => ([], .ok [])
  | callIdx, remaining + 1 =>
    match polls callIdx with
    | .error e => ([.listJobsCall pid plid], .error e)
    | .ok jobs =>
      let manualJobs := jobs.filter fun job => job.status == "manual"
      if manualJobs.length > 0 then
        ([.listJobsCall pid plid], .ok manualJobs)
      else
        let (evs, r) := pollPhase pid plid polls (callIdx + 1) remaining
        (.listJobsCall pid plid :: evs, r)

/-- The `for (const job of manualJobs)` loop of `runAllManualJobs`
(`src/index.ts` lines 228–231): play each job in order via
`runManualJob` (which rethrows failures); the first failure aborts the
loop. -/
def playPhase (plat : Platform) (pid : String) :
    List Job → List Event × Except ErrKind Unit
  | [] => ([], .ok ())
  | job :: rest =>
    match plat.playJob pid job.id with
    | .error e => ([.playJobCall pid job.id], .error e)
    | .ok _ =>
      let (evs, r) := playPhase plat pid rest
      (.playJobCall pid job.id :: evs, r)

/-- `runAllManualJobs` (`src/index.ts` lines 185–238): poll with the
bounded retry budget, return `doneEmpty` when no manual jobs were found,
otherwise play them sequentially; any error from `listJobs` or `playJob`
is rethrown to the caller. -/
def runAllManualJobs (plat : Platform) (pid : String) (plid : Nat) :
    List Event × Except ErrKind CascadeResult :=
  let (evs, r) := pollPhase pid plid (plat.listJobs pid plid) 0 maxRetries
  match r with
  | .error e => (evs, .error e)
  | .ok manualJobs =>
    if manualJobs.length = 0 then (evs, .ok .doneEmpty)
    else
      let (evs2, r2) := playPhase plat pid manualJobs
      match r2 with
      | .error e => (evs ++ evs2, .error e)
      | .ok _ => (evs ++ evs2, .ok .done)

/-- `triggerPipeline` (`src/index.ts` lines 240–289): build the request
body from the environment, call `createPipeline`, then — only on success
and only when `autoRunManualJobs` is enabled — run the cascade for the
returned pipeline id; every error is logged and rethrown unchanged. -/
def triggerPipeline (plat : Platform) (autoRunManualJobs : Bool)
    (env : List (String × Option String)) (proj : Project) (ref : String) :
    List Event × Except ErrKind PipelineResponse :=
  let requestBody := mkRequestBody env ref
  match plat.createPipeline proj.id requestBody with
  | .error e => ([.createPipelineCall proj.id requestBody], .error e)
  | .ok resp =>
    if autoRunManualJobs then
      let (evs, r) := runAllManualJobs plat proj.id resp.id
      match r with
      | .error e => (.createPipelineCall proj.id requestBody :: evs, .error e)
      | .ok _ => (.createPipelineCall proj.id requestBody :: evs, .ok resp)
    else
      ([.createPipelineCall proj.id requestBody], .ok resp)

/-- The per-target loop `for (const project of selectedProjects) await
this.triggerPipeline(project, branch)` shared by `runWithOptions`
(`src/index.ts` lines 316–318) and `interactiveFlow` (lines 345–347):
targets strictly in order, an uncaught failure aborts the remaining
targets. -/
def runTargets (plat : Platform) (autoRunManualJobs : Bool)
    (env : List (String × Option String)) (ref : String) :
    List Project → List Event × Except ErrKind Unit
  | [] => ([], .ok ())
  | proj :: rest =>
    let (evs, r) := triggerPipeline plat autoRunManualJobs env proj ref
    match r with
    | .error e => (evs, .error e)
    | .ok _ =>
      let (evs2, r2) := runTargets plat autoRunManualJobs env ref rest
      (evs ++ evs2, r2)

/-! ### Concrete mock platforms used to exercise the theorems -/

/-- A successfully created pipeline record. -/
def resp1 : PipelineResponse :=
  { id := 1, sha := "s", ref := "main", status := "pending", web_url := "u" }

/-- A manual job. -/
def jobA : Job :=
  { id := 10, name := "deploy-a", stage := "deploy", status := "manual", manual := true }

/-- Another manual job. -/
def jobB : Job :=
  { id := 11, name := "deploy-b", stage := "deploy", status := "manual", manual := true }

/-- A non-manual job. -/
def jobBuild : Job :=
  { id := 5, name := "build", stage := "build", status := "success", manual := false }

/-- A mock platform whose every `listJobs` poll returns no jobs. -/
def emptyPlatform : Platform where
  createPipeline := fun _ _ => .ok resp1
  listJobs := fun _ _ _ => .ok []
  playJob := fun _ _ => .ok ()

/-- A mock platform returning one non-manual and two manual jobs on every
poll; every play succeeds. -/
def twoJobsPlatform : Platform where
  createPipeline := fun _ _ => .ok resp1
  listJobs := fun _ _ _ => .ok [jobBuild, jobA, jobB]
  playJob := fun _ _ => .ok ()

/-- A mock platform whose `createPipeline` always fails with `AuthError`. -/
def authFailPlatform : Platform where
  createPipeline := fun _ _ => .error .AuthError
  listJobs := fun _ _ _ => .ok []
  playJob := fun _ _ => .ok ()

/-- A mock platform whose first poll finds no jobs and whose second poll
fails with `TransientError`. -/
def pollErrPlatform : Platform where
  createPipeline := fun _ _ => .ok resp1
  listJobs := fun _ _ i => if i = 0 then .ok [] else .error .TransientError
  playJob := fun _ _ => .ok ()

/-- A mock platform where playing job 11 fails with `ValidationError`. -/
def playFailPlatform : Platform where
  createPipeline := fun _ _ => .ok resp1
  listJobs := fun _ _ _ => .ok [jobA, jobB, jobBuild]
  playJob := fun _ j => if j = 11 then .error .ValidationError else .ok ()

/-- A mock platform whose `createPipeline` fails with `NotFoundError` for
project id "2" and succeeds otherwise. -/
def secondFailPlatform : Platform where
  createPipeline := fun pid _ => if pid = "2" then .error .NotFoundError else .ok resp1
  listJobs := fun _ _ _ => .ok []
  playJob := fun _ _ => .ok ()

/-! ### Helper lemmas: single steps of the poll and play loops -/

theorem pollPhase_zero (pid : String) (plid : Nat)
    (polls : Nat → Except ErrKind (List Job)) (c : Nat) :
    pollPhase pid plid polls c 0 = ([], Except.ok []) := rfl

theorem pollPhase_error_step (pid : String) (plid : Nat)
    (polls : Nat → Except ErrKind (List Job)) (c fuel : Nat) (e : ErrKind)
    (h : polls c = Except.error e) :
    pollPhase pid plid polls c (fuel + 1) =
      ([Event.listJobsCall pid plid], Except.error e) := by
  simp [pollPhase, h]

theorem pollPhase_found_step (pid : String) (plid : Nat)
    (polls : Nat → Except ErrKind (List Job)) (c fuel : Nat) (js : List Job)
    (h : polls c = Except.ok js)
    (hne : js.filter (fun job => job.status == "manual") ≠ []) :
    pollPhase pid plid polls c (fuel + 1) =
      ([Event.listJobsCall pid plid],
        Except.ok (js.filter fun job => job.status == "manual")) := by
  simp [pollPhase, h, List.length_pos, hne]

theorem pollPhase_empty_step (pid : String) (plid : Nat)
    (polls : Nat → Except ErrKind (List Job)) (c fuel : Nat) (js : List Job)
    (evs : List Event) (r : Except ErrKind (List Job))
    (h : polls c = Except.ok js)
    (he : js.filter (fun job => job.status == "manual") = [])
    (hrec : pollPhase pid plid polls (c + 1) fuel = (evs, r)) :
    pollPhase pid plid polls c (fuel + 1) =
      (Event.listJobsCall pid plid :: evs, r) := by
  simp [pollPhase, h, he, hrec]

/-- When every poll in the budget finds no manual job, the loop spends the
whole budget and returns the empty list. -/
theorem pollPhase_all_empty (pid : String) (plid : Nat)
    (polls : Nat → Except ErrKind (List Job)) :
    ∀ (fuel c : Nat),
      (∀ i, c ≤ i → i < c + fuel → ∃ js, polls i = Except.ok js ∧
        js.filter (fun job => job.status == "manual") = []) →
      pollPhase pid plid polls c fuel =
        (List.replicate fuel (Event.listJobsCall pid plid), Except.ok [])
  | 0, c, _ => rfl
  | fuel + 1, c, h => by
    obtain ⟨js, hjs, hf⟩ := h c (Nat.le_refl c) (by omega)
    have ih := pollPhase_all_empty pid plid polls fuel (c + 1)
      (fun i h1 h2 => h i (by omega) (by omega))
    rw [pollPhase_empty_step pid plid polls c fuel js _ _ hjs hf ih,
      List.replicate_succ]

theorem playPhase_nil (plat : Platform) (pid : String) :
    playPhase plat pid [] = ([], Except.ok ()) := rfl

theorem playPhase_error_step (plat : Platform) (pid : String) (job : Job)
    (rest : List Job) (e : ErrKind) (h : plat.playJob pid job.id = Except.error e) :
    playPhase plat pid (job :: rest) =
      ([Event.playJobCall pid job.id], Except.error e) := by
  simp [playPhase, h]

theorem playPhase_ok_step (plat : Platform) (pid : String) (job : Job)
    (rest : List Job) (evs : List Event) (r : Except ErrKind Unit)
    (h : plat.playJob pid job.id = Except.ok ())
    (hrec : playPhase plat pid rest = (evs, r)) :
    playPhase plat pid (job :: rest) =
      (Event.playJobCall pid job.id :: evs, r) := by
  simp [playPhase, h, hrec]

/-! ### Helper lemmas: unfolding `runAllManualJobs` by the poll outcome -/

theorem runAllManualJobs_of_poll_error (plat : Platform) (pid : String)
    (plid : Nat) (evs : List Event) (e : ErrKind)
    (h : pollPhase pid plid (plat.listJobs pid plid) 0 maxRetries =
      (evs, Except.error e)) :
    runAllManualJobs plat pid plid = (evs, Except.error e) := by
  simp [runAllManualJobs, h]

theorem runAllManualJobs_of_poll_empty (plat : Platform) (pid : String)
    (plid : Nat) (evs : List Event)
    (h : pollPhase pid plid (plat.listJobs pid plid) 0 maxRetries =
      (evs, Except.ok [])) :
    runAllManualJobs plat pid plid =
      (evs, Except.ok CascadeResult.doneEmpty) := by
  simp [runAllManualJobs, h]

theorem runAllManualJobs_of_found_ok (plat : Platform) (pid : String)
    (plid : Nat) (evs evs2 : List Event) (ms : List Job)
    (h : pollPhase pid plid (plat.listJobs pid plid) 0 maxRetries =
      (evs, Except.ok ms))
    (hne : ms ≠ [])
    (hplay : playPhase plat pid ms = (evs2, Except.ok ())) :
    runAllManualJobs plat pid plid =
      (evs ++ evs2, Except.ok CascadeResult.done) := by
  simp [runAllManualJobs, h, hplay, List.length_eq_zero, hne]

theorem runAllManualJobs_of_found_error (plat : Platform) (pid : String)
    (plid : Nat) (evs evs2 : List Event) (ms : List Job) (e : ErrKind)
    (h : pollPhase pid plid (plat.listJobs pid plid) 0 maxRetries =
      (evs, Except.ok ms))
    (hne : ms ≠ [])
    (hplay : playPhase plat pid ms = (evs2, Except.error e)) :
    runAllManualJobs plat pid plid = (evs ++ evs2, Except.error e) := by
  simp [runAllManualJobs, h, hplay, List.length_eq_zero, hne]

/-! ### Claims -/

/-- C1: when every poll of `listJobs` returns a job list with no job in
status `manual`, the cascade performs exactly `maxRetries` (3) `listJobs`
calls, never calls `playJob`, and terminates normally with the empty
result `doneEmpty` rather than with an error. -/
theorem cascade_all_polls_empty_done_empty (plat : Platform) (pid : String)
    (plid : Nat)
    (h : ∀ i, i < maxRetries → ∃ js, plat.listJobs pid plid i = Except.ok js ∧
      js.filter (fun job => job.status == "manual") = []) :
    runAllManualJobs plat pid plid =
      (List.replicate maxRetries (Event.listJobsCall pid plid),
        Except.ok CascadeResult.doneEmpty) := by
  refine runAllManualJobs_of_poll_empty plat pid plid _ ?_
  exact pollPhase_all_empty pid plid (plat.listJobs pid plid) maxRetries 0
    (fun i _ h2 => h i (by omega))

theorem cascade_all_polls_empty_done_empty_witness :
    runAllManualJobs emptyPlatform "p" 1 =
      (List.replicate maxRetries (Event.listJobsCall "p" 1),
        Except.ok CascadeResult.doneEmpty) :=
  cascade_all_polls_empty_done_empty emptyPlatform "p" 1
    (fun _ _ => ⟨[], rfl, rfl⟩)

/-- C2: when the first `listJobs` poll returns a list whose `manual`-status
jobs are exactly `j1` then `j2`, and playing them succeeds, the cascade
calls `playJob` exactly twice, once per discovered job in the order they
appear in the `listJobs` result, and performs no `listJobs` call beyond
the first poll. -/
theorem cascade_two_manual_jobs_played_in_order (plat : Platform)
    (pid : String) (plid : Nat) (js : List Job) (j1 j2 : Job)
    (hpoll : plat.listJobs pid plid 0 = Except.ok js)
    (hfilter : js.filter (fun job => job.status == "manual") = [j1, j2])
    (hplay1 : plat.playJob pid j1.id = Except.ok ())
    (hplay2 : plat.playJob pid j2.id = Except.ok ()) :
    runAllManualJobs plat pid plid =
      ([Event.listJobsCall pid plid, Event.playJobCall pid j1.id,
        Event.playJobCall pid j2.id], Except.ok CascadeResult.done) := by
  have hp : pollPhase pid plid (plat.listJobs pid plid) 0 maxRetries =
      ([Event.listJobsCall pid plid], Except.ok [j1, j2]) := by
    rw [show maxRetries = 2 + 1 from rfl,
      pollPhase_found_step pid plid _ 0 2 js hpoll (by rw [hfilter]; simp),
      hfilter]
  have hplay : playPhase plat pid [j1, j2] =
      ([Event.playJobCall pid j1.id, Event.playJobCall pid j2.id],
        Except.ok ()) := by
    rw [playPhase_ok_step plat pid j1 [j2] _ _ hplay1
      (playPhase_ok_step plat pid j2 [] _ _ hplay2 (playPhase_nil plat pid))]
  rw [runAllManualJobs_of_found_ok plat pid plid _ _ [j1, j2] hp (by simp) hplay]
  rfl

theorem cascade_two_manual_jobs_played_in_order_witness :
    runAllManualJobs twoJobsPlatform "p" 1 =
      ([Event.listJobsCall "p" 1, Event.playJobCall "p" 10,
        Event.playJobCall "p" 11], Except.ok CascadeResult.done) := by
  have h := cascade_two_manual_jobs_played_in_order twoJobsPlatform "p" 1
    [jobBuild, jobA, jobB] jobA jobB rfl (by decide) rfl rfl
  simpa [jobA, jobB] using h

/-! ### String lemmas for the `VARIABLE_` prefix stripping -/

theorem append_drop_of_isPrefixOf :
    ∀ {l₁ l₂ : List Char}, l₁.isPrefixOf l₂ →
      l₁ ++ l₂.drop l₁.length = l₂ := by
  intro l₁
  induction l₁ with
  | nil => intro l₂ _; simp
  | cons a as ih =>
    intro l₂ h
    cases l₂ with
    | nil => simp [List.isPrefixOf] at h
    | cons b bs =>
      simp only [List.isPrefixOf, Bool.and_eq_true, beq_iff_eq] at h
      obtain ⟨hab, h'⟩ := h
      simp [hab, ih h']

theorem listReplaceFirst_of_isPrefixOf {pat l : List Char}
    (h : pat.isPrefixOf l) :
    listReplaceFirst pat [] l = l.drop pat.length := by
  cases l with
  | nil => simp [listReplaceFirst]
  | cons c cs => simp [listReplaceFirst, h]

/-- `key.replace('VARIABLE_', '')` on a key that starts with `VARIABLE_`
drops exactly the first 9 characters. -/
theorem jsReplaceFirst_of_startsWith (s : String)
    (h : jsStartsWith s "VARIABLE_" = true) :
    jsReplaceFirst s "VARIABLE_" "" = ⟨s.data.drop 9⟩ := by
  unfold jsStartsWith at h
  unfold jsReplaceFirst
  rw [show ("" : String).data = [] from rfl, listReplaceFirst_of_isPrefixOf h,
    show ("VARIABLE_" : String).data.length = 9 from rfl]

/-- C3: the derived `PipelineVariable` list keeps exactly the input keys
starting with `VARIABLE_`, in discovery order, with the value unchanged
and the key equal to the input key minus its first 9 characters — i.e.
with the prefix `VARIABLE_` stripped exactly once. -/
theorem getPipelineVariables_spec (env : List (String × String)) :
    getPipelineVariables (env.map fun kv => (kv.1, some kv.2)) =
      (env.filter fun kv => jsStartsWith kv.1 "VARIABLE_").map
        (fun kv => { key := ⟨kv.1.data.drop 9⟩, value := kv.2 }) ∧
    ∀ kv ∈ env, jsStartsWith kv.1 "VARIABLE_" = true →
      ("VARIABLE_" : String).data ++ kv.1.data.drop 9 = kv.1.data := by
  constructor
  · induction env with
    | nil => rfl
    | cons kv rest ih =>
      by_cases h : jsStartsWith kv.1 "VARIABLE_" = true
      · simp only [getPipelineVariables, List.map_cons, List.filterMap_cons,
          h, if_true, List.filter_cons_of_pos, List.map_cons] at ih ⊢
        rw [jsReplaceFirst_of_startsWith kv.1 h, ih]
      · simp only [getPipelineVariables, List.map_cons, List.filterMap_cons,
          h, if_false, List.filter_cons_of_neg, List.map_cons,
          Bool.not_eq_true] at ih ⊢
        exact ih
  · intro kv _ h
    have h' : ("VARIABLE_" : String).data.isPrefixOf kv.1.data = true := h
    have := append_drop_of_isPrefixOf h'
    simpa using this

theorem getPipelineVariables_spec_witness :
    getPipelineVariables [("VARIABLE_ENV", some "prod"), ("OTHER", some "x")] =
      [{ key := "ENV", value := "prod" }] :=
  ((getPipelineVariables_spec
    [("VARIABLE_ENV", "prod"), ("OTHER", "x")]).1).trans (by decide)

/-! ### Helper lemmas: unfolding `triggerPipeline` and `runTargets` -/

theorem triggerPipeline_of_create_error (plat : Platform) (autoRun : Bool)
    (env : List (String × Option String)) (proj : Project) (ref : String)
    (e : ErrKind)
    (h : plat.createPipeline proj.id (mkRequestBody env ref) = Except.error e) :
    triggerPipeline plat autoRun env proj ref =
      ([Event.createPipelineCall proj.id (mkRequestBody env ref)],
        Except.error e) := by
  simp [triggerPipeline, h]

theorem triggerPipeline_of_create_ok_disabled (plat : Platform)
    (env : List (String × Option String)) (proj : Project) (ref : String)
    (resp : PipelineResponse)
    (h : plat.createPipeline proj.id (mkRequestBody env ref) = Except.ok resp) :
    triggerPipeline plat false env proj ref =
      ([Event.createPipelineCall proj.id (mkRequestBody env ref)],
        Except.ok resp) := by
  simp [triggerPipeline, h]

theorem runTargets_nil (plat : Platform) (autoRun : Bool)
    (env : List (String × Option String)) (ref : String) :
    runTargets plat autoRun env ref [] = ([], Except.ok ()) := rfl

theorem runTargets_cons_error (plat : Platform) (autoRun : Bool)
    (env : List (String × Option String)) (ref : String) (proj : Project)
    (rest : List Project) (evs : List Event) (e : ErrKind)
    (h : triggerPipeline plat autoRun env proj ref = (evs, Except.error e)) :
    runTargets plat autoRun env ref (proj :: rest) = (evs, Except.error e) := by
  simp [runTargets, h]

theorem runTargets_cons_ok (plat : Platform) (autoRun : Bool)
    (env : List (String × Option String)) (ref : String) (proj : Project)
    (rest : List Project) (evs : List Event) (resp : PipelineResponse)
    (h : triggerPipeline plat autoRun env proj ref = (evs, Except.ok resp)) :
    runTargets plat autoRun env ref (proj :: rest) =
      (evs ++ (runTargets plat autoRun env ref rest).1,
        (runTargets plat autoRun env ref rest).2) := by
  simp [runTargets, h]

/-- C4: with the cascade disabled and every `createPipeline` call
succeeding, the orchestrator loop issues exactly one `createPipeline`
call per target, in input order, and no `listJobs` or `playJob` call. -/
theorem runTargets_cascade_disabled (plat : Platform)
    (env : List (String × Option String)) (ref : String)
    (projects : List Project)
    (h : ∀ p ∈ projects, ∃ resp,
      plat.createPipeline p.id (mkRequestBody env ref) = Except.ok resp) :
    runTargets plat false env ref projects =
      (projects.map fun p => Event.createPipelineCall p.id (mkRequestBody env ref),
        Except.ok ()) := by
  induction projects with
  | nil => rfl
  | cons p rest ih =>
    obtain ⟨resp, hp⟩ := h p (by simp)
    have hrest := ih fun q hq => h q (by simp [hq])
    rw [runTargets_cons_ok plat false env ref p rest _ resp
      (triggerPipeline_of_create_ok_disabled plat env p ref resp hp), hrest]
    simp

theorem runTargets_cascade_disabled_witness :
    runTargets emptyPlatform false [] "main" [⟨"1", "a"⟩, ⟨"2", "b"⟩] =
      ([Event.createPipelineCall "1" (mkRequestBody [] "main"),
        Event.createPipelineCall "2" (mkRequestBody [] "main")],
        Except.ok ()) := by
  have h := runTargets_cascade_disabled emptyPlatform [] "main"
    [⟨"1", "a"⟩, ⟨"2", "b"⟩] (fun p _ => ⟨resp1, rfl⟩)
  simpa using h

/-- C5: if `createPipeline` fails for a target then the cascade engine is
never invoked for it — the trace holds the single `createPipeline` call
and no `listJobs` or `playJob` call — and the same error value, kind
preserved, propagates to the caller. -/
theorem triggerPipeline_create_error_no_cascade (plat : Platform)
    (autoRun : Bool) (env : List (String × Option String)) (proj : Project)
    (ref : String) (e : ErrKind)
    (h : plat.createPipeline proj.id (mkRequestBody env ref) = Except.error e) :
    triggerPipeline plat autoRun env proj ref =
      ([Event.createPipelineCall proj.id (mkRequestBody env ref)],
        Except.error e) :=
  triggerPipeline_of_create_error plat autoRun env proj ref e h

theorem triggerPipeline_create_error_no_cascade_witness :
    triggerPipeline authFailPlatform true [] ⟨"1", "a"⟩ "main" =
      ([Event.createPipelineCall "1" (mkRequestBody [] "main")],
        Except.error ErrKind.AuthError) :=
  triggerPipeline_create_error_no_cascade authFailPlatform true [] ⟨"1", "a"⟩
    "main" ErrKind.AuthError rfl

/-- C10: the trace of `triggerPipeline` starts with the `createPipeline`
call whose request body omits the `variables` field (it is `none`) when
the derived `PipelineVariable` list is empty, and carries exactly that
list otherwise — the field is present iff at least one prefixed
environment variable was discovered. -/
theorem requestBody_variables_present_iff_nonempty (plat : Platform)
    (autoRun : Bool) (env : List (String × Option String)) (proj : Project)
    (ref : String) :
    ∃ rest, (triggerPipeline plat autoRun env proj ref).1 =
        Event.createPipelineCall proj.id (mkRequestBody env ref) :: rest ∧
      (mkRequestBody env ref).«variables» =
        (if getPipelineVariables env = [] then none
          else some (getPipelineVariables env)) := by
  have hbody : (mkRequestBody env ref).«variables» =
      (if getPipelineVariables env = [] then none
        else some (getPipelineVariables env)) := by
    by_cases h : getPipelineVariables env = [] <;>
      simp [mkRequestBody, h, List.length_pos, List.length_eq_zero]
  cases hc : plat.createPipeline proj.id (mkRequestBody env ref) with
  | error e =>
    exact ⟨[], by rw [triggerPipeline_of_create_error plat autoRun env proj ref e hc],
      hbody⟩
  | ok resp =>
    cases autoRun with
    | false =>
      exact ⟨[], by
        rw [triggerPipeline_of_create_ok_disabled plat env proj ref resp hc],
        hbody⟩
    | true =>
      refine ⟨(runAllManualJobs plat proj.id resp.id).1, ?_, hbody⟩
      cases hr : runAllManualJobs plat proj.id resp.id with
      | mk evs r => cases r <;> simp [triggerPipeline, hc, hr]

/-- C8: if every target before `pbad` triggers successfully and the
trigger (or cascade) of `pbad` fails with `e`, the whole run produces
exactly the traces of the targets up to and including `pbad` and the
error `e` — nothing at all happens for the targets after `pbad`, whose
list `post` does not influence the outcome. -/
theorem runTargets_error_aborts_rest (plat : Platform) (autoRun : Bool)
    (env : List (String × Option String)) (ref : String)
    (pre post : List Project) (pbad : Project) (e : ErrKind)
    (hpre : ∀ p ∈ pre, ∃ resp,
      (triggerPipeline plat autoRun env p ref).2 = Except.ok resp)
    (hbad : (triggerPipeline plat autoRun env pbad ref).2 = Except.error e) :
    runTargets plat autoRun env ref (pre ++ pbad :: post) =
      ((pre.map fun p => (triggerPipeline plat autoRun env p ref).1).flatten
        ++ (triggerPipeline plat autoRun env pbad ref).1,
        Except.error e) := by
  induction pre with
  | nil =>
    rw [List.nil_append,
      runTargets_cons_error plat autoRun env ref pbad post _ e (by rw [← hbad])]
    simp
  | cons p rest ih =>
    obtain ⟨resp, hp⟩ := hpre p (by simp)
    have hstep := runTargets_cons_ok plat autoRun env ref p
      (rest ++ pbad :: post) _ resp (by rw [← hp])
    rw [List.cons_append, hstep,
      ih (fun q hq => hpre q (by simp [hq]))]
    simp

theorem runTargets_error_aborts_rest_witness :
    runTargets secondFailPlatform false [] "main"
        [⟨"1", "a"⟩, ⟨"2", "b"⟩, ⟨"3", "c"⟩] =
      ([Event.createPipelineCall "1" (mkRequestBody [] "main"),
        Event.createPipelineCall "2" (mkRequestBody [] "main")],
        Except.error ErrKind.NotFoundError) := by
  have h := runTargets_error_aborts_rest secondFailPlatform false [] "main"
    [⟨"1", "a"⟩] [⟨"3", "c"⟩] ⟨"2", "b"⟩ ErrKind.NotFoundError
    (by
      intro p hp
      simp only [List.mem_singleton] at hp
      subst hp
      exact ⟨resp1, by rw [triggerPipeline_of_create_ok_disabled
        secondFailPlatform [] ⟨"1", "a"⟩ "main" resp1 rfl]⟩)
    (by rw [triggerPipeline_of_create_error secondFailPlatform false []
      ⟨"2", "b"⟩ "main" ErrKind.NotFoundError rfl])
  rw [show ([⟨"1", "a"⟩, ⟨"2", "b"⟩, ⟨"3", "c"⟩] : List Project) =
    [⟨"1", "a"⟩] ++ ⟨"2", "b"⟩ :: [⟨"3", "c"⟩] from rfl, h]
  simp [triggerPipeline_of_create_ok_disabled secondFailPlatform []
      ⟨"1", "a"⟩ "main" resp1 rfl,
    triggerPipeline_of_create_error secondFailPlatform false [] ⟨"2", "b"⟩
      "main" ErrKind.NotFoundError rfl]

/-- The play loop up to and including the first failing job: the earlier
jobs are played in order, the failing job's error aborts the loop, and
the jobs after it are never played. -/
theorem playPhase_error_in_middle (plat : Platform) (pid : String) :
    ∀ (pre : List Job) (post : List Job) (jbad : Job) (e : ErrKind),
      (∀ j ∈ pre, plat.playJob pid j.id = Except.ok ()) →
      plat.playJob pid jbad.id = Except.error e →
      playPhase plat pid (pre ++ jbad :: post) =
        ((pre ++ [jbad]).map fun j => Event.playJobCall pid j.id,
          Except.error e)
  | [], post, jbad, e, _, hbad => by
    rw [List.nil_append, playPhase_error_step plat pid jbad post e hbad]
    rfl
  | j :: rest, post, jbad, e, hpre, hbad => by
    have hj := hpre j (by simp)
    have ih := playPhase_error_in_middle plat pid rest post jbad e
      (fun q hq => hpre q (by simp [hq])) hbad
    rw [List.cons_append, playPhase_ok_step plat pid j
      (rest ++ jbad :: post) _ _ hj ih]
    rfl

/-- C6: within one cascade pass, if playing the (k+1)-th discovered
manual job fails, the jobs after it are not played and the error is
propagated to the caller — no partial-success continuation. -/
theorem cascade_play_failure_aborts (plat : Platform) (pid : String)
    (plid : Nat) (js pre post : List Job) (jbad : Job) (e : ErrKind)
    (hpoll : plat.listJobs pid plid 0 = Except.ok js)
    (hfilter : js.filter (fun job => job.status == "manual") =
      pre ++ jbad :: post)
    (hpre : ∀ j ∈ pre, plat.playJob pid j.id = Except.ok ())
    (hbad : plat.playJob pid jbad.id = Except.error e) :
    runAllManualJobs plat pid plid =
      (Event.listJobsCall pid plid ::
        ((pre ++ [jbad]).map fun j => Event.playJobCall pid j.id),
        Except.error e) := by
  have hp : pollPhase pid plid (plat.listJobs pid plid) 0 maxRetries =
      ([Event.listJobsCall pid plid], Except.ok (pre ++ jbad :: post)) := by
    rw [show maxRetries = 2 + 1 from rfl,
      pollPhase_found_step pid plid _ 0 2 js hpoll (by rw [hfilter]; simp),
      hfilter]
  rw [runAllManualJobs_of_found_error plat pid plid _ _ (pre ++ jbad :: post)
    e hp (by simp) (playPhase_error_in_middle plat pid pre post jbad e hpre hbad)]
  rfl

theorem cascade_play_failure_aborts_witness :
    runAllManualJobs playFailPlatform "p" 1 =
      ([Event.listJobsCall "p" 1, Event.playJobCall "p" 10,
        Event.playJobCall "p" 11], Except.error ErrKind.ValidationError) := by
  have h := cascade_play_failure_aborts playFailPlatform "p" 1
    [jobA, jobB, jobBuild] [jobA] [] jobB ErrKind.ValidationError rfl
    (by decide)
    (by
      intro j hj
      simp only [List.mem_singleton] at hj
      subst hj
      rfl)
    rfl
  simpa [jobA, jobB] using h

/-- C7: during polling, an error from `listJobs` on attempt `k` (after
`k` empty polls) stops the loop at once: no further poll, no `playJob`
call, and the error propagates to the caller. -/
theorem cascade_listJobs_error_aborts (plat : Platform) (pid : String)
    (plid : Nat) (k : Nat) (e : ErrKind)
    (hk : k < maxRetries)
    (hempty : ∀ i, i < k → ∃ js, plat.listJobs pid plid i = Except.ok js ∧
      js.filter (fun job => job.status == "manual") = [])
    (herr : plat.listJobs pid plid k = Except.error e) :
    runAllManualJobs plat pid plid =
      (List.replicate (k + 1) (Event.listJobsCall pid plid),
        Except.error e) := by
  refine runAllManualJobs_of_poll_error plat pid plid _ e ?_
  rw [show maxRetries = 3 from rfl] at hk
  interval_cases k
  · rw [show maxRetries = 2 + 1 from rfl,
      pollPhase_error_step pid plid _ 0 2 e herr]
    rfl
  · obtain ⟨js0, h0, f0⟩ := hempty 0 (by omega)
    rw [show maxRetries = 2 + 1 from rfl,
      pollPhase_empty_step pid plid _ 0 2 js0 _ _ h0 f0
        (pollPhase_error_step pid plid _ 1 1 e herr)]
    rfl
  · obtain ⟨js0, h0, f0⟩ := hempty 0 (by omega)
    obtain ⟨js1, h1, f1⟩ := hempty 1 (by omega)
    rw [show maxRetries = 2 + 1 from rfl,
      pollPhase_empty_step pid plid _ 0 2 js0 _ _ h0 f0
        (pollPhase_empty_step pid plid _ 1 1 js1 _ _ h1 f1
          (pollPhase_error_step pid plid _ 2 0 e herr))]
    rfl

theorem cascade_listJobs_error_aborts_witness :
    runAllManualJobs pollErrPlatform "p" 1 =
      (List.replicate 2 (Event.listJobsCall "p" 1),
        Except.error ErrKind.TransientError) :=
  cascade_listJobs_error_aborts pollErrPlatform "p" 1 1
    ErrKind.TransientError (by decide)
    (by
      intro i hi
      have : i = 0 := by omega
      subst this
      exact ⟨[], rfl, rfl⟩)
    rfl

/-! ### Trace-shape lemmas for the cascade invariant -/

/-- Every event emitted by the polling loop is a `listJobs` call. -/
theorem pollPhase_events_listJobs (pid : String) (plid : Nat)
    (polls : Nat → Except ErrKind (List Job)) :
    ∀ (fuel c : Nat), ∀ ev ∈ (pollPhase pid plid polls c fuel).1,
      ev = Event.listJobsCall pid plid
  | 0, c => by rw [pollPhase_zero]; simp
  | fuel + 1, c => by
    cases hp : polls c with
    | error e =>
      rw [pollPhase_error_step pid plid polls c fuel e hp]
      simp
    | ok js =>
      by_cases hf : js.filter (fun job => job.status == "manual") = []
      · cases hrec : pollPhase pid plid polls (c + 1) fuel with
        | mk evs r =>
          rw [pollPhase_empty_step pid plid polls c fuel js evs r hp hf hrec]
          intro ev hev
          rcases List.mem_cons.mp hev with h | h
          · exact h
          · have htail := pollPhase_events_listJobs pid plid polls fuel (c + 1)
            rw [hrec] at htail
            exact htail ev h
      · rw [pollPhase_found_step pid plid polls c fuel js hp hf]
        simp

/-- When the polling loop returns a non-empty manual-job list, that list
is the `manual` filter of the jobs returned by the last poll `k`, and the
loop's trace is exactly the `k + 1 - c` `listJobs` calls it made. -/
theorem pollPhase_ok_last_poll (pid : String) (plid : Nat)
    (polls : Nat → Except ErrKind (List Job)) :
    ∀ (fuel c : Nat) (evs : List Event) (ms : List Job),
      pollPhase pid plid polls c fuel = (evs, Except.ok ms) → ms ≠ [] →
      ∃ k js, c ≤ k ∧ k < c + fuel ∧ polls k = Except.ok js ∧
        ms = js.filter (fun job => job.status == "manual") ∧
        evs = List.replicate (k + 1 - c) (Event.listJobsCall pid plid)
  | 0, c, evs, ms => by
    intro h hne
    rw [pollPhase_zero] at h
    injection h with h1 h2
    injection h2 with h3
    exact absurd h3.symm hne
  | fuel + 1, c, evs, ms => by
    intro h hne
    cases hp : polls c with
    | error e =>
      rw [pollPhase_error_step pid plid polls c fuel e hp] at h
      injection h with h1 h2
      exact absurd h2 (by simp)
    | ok js =>
      by_cases hf : js.filter (fun job => job.status == "manual") = []
      · cases hrec : pollPhase pid plid polls (c + 1) fuel with
        | mk evs' r' =>
          rw [pollPhase_empty_step pid plid polls c fuel js evs' r' hp hf hrec]
            at h
          injection h with h1 h2
          obtain ⟨k, js', hk1, hk2, hpk, hms, hevs'⟩ :=
            pollPhase_ok_last_poll pid plid polls fuel (c + 1) evs' ms
              (by rw [hrec, h2]) hne
          refine ⟨k, js', by omega, by omega, hpk, hms, ?_⟩
          rw [← h1, hevs', show k + 1 - c = (k + 1 - (c + 1)) + 1 by omega,
            List.replicate_succ]
      · rw [pollPhase_found_step pid plid polls c fuel js hp hf] at h
        injection h with h1 h2
        injection h2 with h3
        refine ⟨c, js, Nat.le_refl c, by omega, hp, h3.symm, ?_⟩
        rw [← h1, show c + 1 - c = 1 by omega]
        rfl

/-- The play loop's trace is the `playJob` calls for the ids of some
initial segment of the discovered manual-job list, in order. -/
theorem playPhase_events_take (plat : Platform) (pid : String) :
    ∀ ms : List Job, ∃ n, (playPhase plat pid ms).1 =
      ((ms.take n).map Job.id).map (Event.playJobCall pid)
  | [] => ⟨0, rfl⟩
  | job :: rest => by
    cases hp : plat.playJob pid job.id with
    | error e =>
      refine ⟨1, ?_⟩
      rw [playPhase_error_step plat pid job rest e hp]
      rfl
    | ok u =>
      cases u
      obtain ⟨n, hn⟩ := playPhase_events_take plat pid rest
      cases hrec : playPhase plat pid rest with
      | mk evs r =>
        refine ⟨n + 1, ?_⟩
        rw [playPhase_ok_step plat pid job rest evs r hp hrec]
        rw [hrec] at hn
        have hn' : evs = ((rest.take n).map Job.id).map (Event.playJobCall pid) :=
          hn
        rw [List.take_succ_cons, List.map_cons, List.map_cons, hn']

/-- `Event.playJobCall pid` is injective in the job id. -/
theorem playJobCall_injective (pid : String) :
    Function.Injective (Event.playJobCall pid) := by
  intro a b hab
  injection hab

/-- C9: invariant of every cascade pass — each `playJob` call targets the
id of a job whose status was `manual` in the most recent `listJobs`
result (poll `k`, the last poll made, as the `listJobs`-call count in the
trace shows), and, provided the platform reports pairwise-distinct job
ids, no job id is played more than once within the pass. -/
theorem cascade_plays_only_fresh_manual_jobs (plat : Platform)
    (pid : String) (plid : Nat)
    (hnodup : ∀ i js, plat.listJobs pid plid i = Except.ok js →
      (js.map Job.id).Nodup) :
    (∀ j, Event.playJobCall pid j ∈ (runAllManualJobs plat pid plid).1 →
      ∃ k js, k < maxRetries ∧ plat.listJobs pid plid k = Except.ok js ∧
        (∃ jb ∈ js, jb.status = "manual" ∧ jb.id = j) ∧
        (runAllManualJobs plat pid plid).1.count
          (Event.listJobsCall pid plid) = k + 1) ∧
    (∀ j, (runAllManualJobs plat pid plid).1.count
      (Event.playJobCall pid j) ≤ 1) := by
  cases hpoll : pollPhase pid plid (plat.listJobs pid plid) 0 maxRetries with
  | mk evs r =>
    have hall : ∀ ev ∈ evs, ev = Event.listJobsCall pid plid := by
      have h := pollPhase_events_listJobs pid plid (plat.listJobs pid plid)
        maxRetries 0
      rw [hpoll] at h
      exact h
    have hnoplay : ∀ j, Event.playJobCall pid j ∉ evs := by
      intro j hmem
      exact absurd (hall _ hmem) (by simp)
    cases r with
    | error e =>
      rw [runAllManualJobs_of_poll_error plat pid plid evs e hpoll]
      refine ⟨fun j hj => absurd (hall _ hj) (by simp), fun j => ?_⟩
      rw [List.count_eq_zero.mpr (hnoplay j)]
      omega
    | ok ms =>
      by_cases hne : ms = []
      · subst hne
        rw [runAllManualJobs_of_poll_empty plat pid plid evs hpoll]
        refine ⟨fun j hj => absurd (hall _ hj) (by simp), fun j => ?_⟩
        rw [List.count_eq_zero.mpr (hnoplay j)]
        omega
      · obtain ⟨k, js, hk0, hkmax, hpk, hms, hevs⟩ :=
          pollPhase_ok_last_poll pid plid (plat.listJobs pid plid)
            maxRetries 0 evs ms hpoll hne
        have hmsnodup : (ms.map Job.id).Nodup := by
          rw [hms]
          exact ((List.filter_sublist js).map Job.id).nodup (hnodup k js hpk)
        obtain ⟨n, hn⟩ := playPhase_events_take plat pid ms
        cases hplay : playPhase plat pid ms with
        | mk evs2 r2 =>
          rw [hplay] at hn
          have hn2 : evs2 = ((ms.take n).map Job.id).map
              (Event.playJobCall pid) := hn
          have htrace : (runAllManualJobs plat pid plid).1 = evs ++ evs2 := by
            cases r2 with
            | error e =>
              rw [runAllManualJobs_of_found_error plat pid plid evs evs2 ms e
                hpoll hne hplay]
            | ok u =>
              cases u
              rw [runAllManualJobs_of_found_ok plat pid plid evs evs2 ms
                hpoll hne hplay]
          rw [htrace]
          have hnolist : ∀ x, Event.listJobsCall pid plid ∉
              ((x : List Nat)).map (Event.playJobCall pid) := by
            intro x hmem
            obtain ⟨a, _, ha⟩ := List.mem_map.mp hmem
            exact absurd ha (by simp)
          constructor
          · intro j hj
            have hj2 : Event.playJobCall pid j ∈ evs2 := by
              rcases List.mem_append.mp hj with h | h
              · exact absurd h (hnoplay j)
              · exact h
            rw [hn2] at hj2
            obtain ⟨jid, hjid_mem, hjid_eq⟩ := List.mem_map.mp hj2
            have hjj : jid = j := playJobCall_injective pid hjid_eq
            subst hjj
            obtain ⟨jb, hjb_take, hjb_id⟩ := List.mem_map.mp hjid_mem
            have hjb_ms : jb ∈ ms := List.mem_of_mem_take hjb_take
            rw [hms] at hjb_ms
            obtain ⟨hjb_js, hjb_manual⟩ := List.mem_filter.mp hjb_ms
            refine ⟨k, js, by omega, hpk,
              ⟨jb, hjb_js, by simpa using hjb_manual, hjb_id⟩, ?_⟩
            have hc2 : List.count (Event.listJobsCall pid plid) evs2 = 0 :=
              List.count_eq_zero.mpr (by rw [hn2]; exact hnolist _)
            rw [List.count_append, hevs, Nat.sub_zero,
              List.count_replicate_self, hc2]
          · intro j
            rw [List.count_append, List.count_eq_zero.mpr (hnoplay j),
              hn2, List.count_map_of_injective _ (Event.playJobCall pid)
                (playJobCall_injective pid) j]
            have h1 : ((ms.take n).map Job.id).count j ≤
                (ms.map Job.id).count j :=
              ((List.take_sublist n ms).map Job.id).count_le j
            have h2 : (ms.map Job.id).count j ≤ 1 :=
              List.nodup_iff_count_le_one.mp hmsnodup j
            omega

theorem cascade_plays_only_fresh_manual_jobs_witness :
    (runAllManualJobs twoJobsPlatform "p" 1).1.count
      (Event.playJobCall "p" 10) ≤ 1 := by
  have h := cascade_plays_only_fresh_manual_jobs twoJobsPlatform "p" 1
    (by
      intro i js hjs
      have : ([jobBuild, jobA, jobB] : List Job) = js := by
        injection hjs
      rw [← this]
      decide)
  exact h.2 10

end AutoPipeline
